import Mathlib

/-!
Shallow embedding of `src/tachys/src/reactive_graph/mod.rs` (tachys reactive
view bindings): reactive functions placed in view/attribute position, render
effects, the mountable state bridge, the `Suspend` async attribute wrapper,
and the observable-cell (signal) adapter table.

Conventions:
* A `FnMut() -> V` reactive function is embedded as an instrumented value
  stream `InstrFn V`: `values n` is the value the `n`-th invocation returns,
  and `calls` counts invocations so far, so "invoked exactly once" is provable.
* The collaborator value contracts (`Render`/`AttributeValue` on the output
  type `V`) are abstract function parameters `vbuild`, `vrebuild`, `vhydrate`,
  mirroring the trait bounds of the Rust impls.
* Panics are embedded as `Except`/`Option` failure values; the view tree is a
  list of node ids; `cfg(feature = "tracing")` diagnostics are a returned list
  of messages guarded by a `tracing : Bool` flag.
-/

namespace Tachys

/-- A `FnMut() -> V` closure, instrumented: `values n` is the result of the
`n`-th invocation (the closure may be stateful, so successive invocations may
differ), `calls` is the number of invocations made so far. -/
structure InstrFn (V : Type) where
  values : Nat → V
  calls : Nat

/-- `ReactiveFunction::invoke` for a plain `FnMut() -> T` closure
(src lines 469-482): run the closure once, returning its value and the
advanced closure state. -/
def InstrFn.invoke {V : Type} (f : InstrFn V) : V × InstrFn V :=
  (f.values f.calls, { f with calls := f.calls + 1 })

/-! ## Render-effect bodies (`Render::build`, `RenderHtml::hydrate` for `F`) -/

/-- The closure body passed to `RenderEffect::new` in `Render::build for F`
(src lines 62-70): invoke the reactive function; on the first run
(`prev = none`) build fresh state from the value; on a rerun rebuild the
carried state in place and return it. The captured `FnMut` state is threaded
through. -/
def buildBody {V S : Type} (vbuild : V → S) (vrebuild : V → S → S)
    (f : InstrFn V) (prev : Option S) : S × InstrFn V :=
  let p := f.invoke
  match prev with
  | some state => (vrebuild p.1 state, p.2)
  | none => (vbuild p.1, p.2)

/-- The closure body passed to `RenderEffect::new` in `RenderHtml::hydrate for
F` (src lines 178-187): identical to the build body except that the first run
hydrates against the captured cursor and position instead of building. -/
def hydrateBody {V S C P : Type} (vhydrate : C → P → V → S) (vrebuild : V → S → S)
    (cursor : C) (position : P) (f : InstrFn V) (prev : Option S) :
    S × InstrFn V :=
  let p := f.invoke
  match prev with
  | some state => (vrebuild p.1 state, p.2)
  | none => (vhydrate cursor position p.1, p.2)

/-- Modelled from the spec: `RenderEffect::new` (crate `reactive_graph`, not
under `src/`) runs its body immediately with `none` as the previous state, and
each dependency-triggered rerun passes the state produced by the prior run as
`some state`. `effectRuns body f n` is the (state, closure-state) pair after
run `n` (run `0` is the initial run inside `RenderEffect::new`). -/
def effectRuns {V S : Type} (body : InstrFn V → Option S → S × InstrFn V)
    (f : InstrFn V) : Nat → S × InstrFn V
  | 0 => body f none
  | n + 1 =>
    let p := effectRuns body f n
    body p.2 (some p.1)

/-! ## Shared reactive functions and lock poisoning -/

/-- The state of an `Arc<Mutex<dyn FnMut() -> T + Send>>`
(`SharedReactiveFunction`, src line 442): the guarded closure plus the mutex
poison flag. Modelled from the spec: `std::sync::Mutex` poisons itself when a
holder panics, and `lock()` on a poisoned mutex returns `Err`. -/
structure SharedFn (V : Type) where
  values : Nat → Option V
  calls : Nat
  poisoned : Bool

/-- Outcome of invoking a shared reactive function: either a value together
with the updated shared state, or a panic (with the shared state as left
behind, poisoned if the closure itself panicked while holding the lock). -/
inductive SharedInvokeResult (V : Type) where
  | ok (value : V) (after : SharedFn V)
  | panicked (after : SharedFn V)

/-- `ReactiveFunction::invoke` for `Arc<Mutex<dyn FnMut() -> T + Send>>`
(src lines 459-462): `self.lock().expect("lock poisoned")` panics before the
closure runs when the mutex is poisoned; otherwise run the closure under the
lock, and if the closure itself panics (`values calls = none`) the mutex
becomes poisoned. -/
def SharedFn.invoke {V : Type} (m : SharedFn V) : SharedInvokeResult V :=
  if m.poisoned then
    .panicked m
  else
    match m.values m.calls with
    | some v => .ok v { m with calls := m.calls + 1 }
    | none => .panicked { m with calls := m.calls + 1, poisoned := true }

/-- Whether an invocation outcome is a panic. -/
def SharedInvokeResult.isPanic {V : Type} : SharedInvokeResult V → Bool
  | .panicked _ => true
  | .ok _ _ => false

/-! ## The view tree and the rebuild hand-off -/

/-- The live view tree: the list of node ids in traversal order. -/
abbrev Tree := List Nat

/-- Modelled from the spec: the view-tree half of the `Mountable` contract
(`insert_before_this(other)`: "attempt to position `other` immediately before
self") — insert the child's nodes immediately before the given anchor node
(the first node of the receiving state), leaving the tree unchanged if the
anchor is absent. -/
def insertNodesBefore (anchor : Nat) (child : Tree) : Tree → Tree
  | [] => []
  | x :: xs =>
    if x = anchor then child ++ x :: xs else x :: insertNodesBefore anchor child xs

/-- Modelled from the spec: `insert_before_this` of a mounted state owning
`selfNodes` positions the child's nodes immediately before the state's first
node. -/
def mountedInsertBeforeThis (selfNodes child tree : Tree) : Tree :=
  match selfNodes with
  | [] => tree
  | a :: _ => insertNodesBefore a child tree

/-- Modelled from the spec: `unmount` of a mounted state removes exactly its
own nodes from the live tree. -/
def mountedUnmount (selfNodes tree : Tree) : Tree :=
  tree.filter fun x => decide (x ∉ selfNodes)

/-- `Render::rebuild for F` (src lines 75-80), viewed through its effect on
the live tree: first an entirely new effect and state are built (`newNodes`),
then `old.insert_before_this(state)` inserts the new state immediately before
the old state's position, and then `old.unmount()` removes the old state's
nodes. The result lists the successive tree states (initial, after insertion,
after unmount), in the order the source performs them. The macro-generated
`Render::rebuild` for signal types (src lines 522-528, 696-701) has the
identical body. -/
def rebuildTrace (newNodes oldNodes tree : Tree) : List Tree :=
  let afterInsert := mountedInsertBeforeThis oldNodes newNodes tree
  let afterUnmount := mountedUnmount oldNodes afterInsert
  [tree, afterInsert, afterUnmount]

/-! ## The mountable state bridge -/

/-- `Mountable for RenderEffect<M>`, `unmount` (src lines 217-219): forward to
the currently held value via `with_value_mut`; no-op when the effect holds no
value. -/
def effectUnmount {M : Type} (u : M → M) : Option M → Option M
  | some inner => some (u inner)
  | none => none

/-- `Mountable for RenderEffect<M>`, `mount` (src lines 221-229): forward the
parent and marker to the currently held value; no-op when absent. -/
def effectMount {M Elem Node : Type} (mt : M → Elem → Option Node → M)
    (v : Option M) (parent : Elem) (marker : Option Node) : Option M :=
  match v with
  | some inner => some (mt inner parent marker)
  | none => none

/-- `Mountable for RenderEffect<M>`, `insert_before_this` (src lines 231-234):
forward to the held value, `unwrap_or(false)` when the effect holds none. -/
def effectInsertBeforeThis {M C : Type} (ins : M → C → Bool × C)
    (v : Option M) (child : C) : Bool × C :=
  match v with
  | some inner => ins inner child
  | none => (false, child)

/-- `Mountable for RenderEffectState<T>`, `unmount` (src lines 97-101): the
optional box forwards to its inner `RenderEffect` when present. -/
def effectStateUnmount {M : Type} (u : M → M) :
    Option (Option M) → Option (Option M)
  | some eff => some (effectUnmount u eff)
  | none => none

/-- `Mountable for RenderEffectState<T>`, `mount` (src lines 103-107). -/
def effectStateMount {M Elem Node : Type} (mt : M → Elem → Option Node → M)
    (st : Option (Option M)) (parent : Elem) (marker : Option Node) :
    Option (Option M) :=
  match st with
  | some eff => some (effectMount mt eff parent marker)
  | none => none

/-- `Mountable for RenderEffectState<T>`, `insert_before_this`
(src lines 109-115): forward when present, `false` when the box is empty. -/
def effectStateInsertBeforeThis {M C : Type} (ins : M → C → Bool × C)
    (st : Option (Option M)) (child : C) : Bool × C :=
  match st with
  | some eff => effectInsertBeforeThis ins eff child
  | none => (false, child)

/-- `Mountable for Result<M, E>`, `unmount` (src lines 242-246): only the
success case is unmounted; an error value is inert. -/
def resultUnmount {M E : Type} (u : M → M) : Except E M → Except E M
  | .ok inner => .ok (u inner)
  | .error e => .error e

/-- `Mountable for Result<M, E>`, `mount` (src lines 248-256). -/
def resultMount {M E Elem Node : Type} (mt : M → Elem → Option Node → M)
    (st : Except E M) (parent : Elem) (marker : Option Node) : Except E M :=
  match st with
  | .ok inner => .ok (mt inner parent marker)
  | .error e => .error e

/-- `Mountable for Result<M, E>`, `insert_before_this` (src lines 258-264):
forward on success, `false` on an error value. -/
def resultInsertBeforeThis {M C E : Type} (ins : M → C → Bool × C)
    (st : Except E M) (child : C) : Bool × C :=
  match st with
  | .ok inner => ins inner child
  | .error _ => (false, child)

/-! ## HTML serialization of a reactive-function view (`RenderHtml for F`) -/

/-- `RenderHtml for F`, associated constant `MIN_LENGTH` (src line 128). -/
def fMinLength : Nat := 0

/-- `RenderHtml::html_len for F` (src lines 138-140): the value type's
`MIN_LENGTH`. -/
def fHtmlLen (vMinLength : Nat) : Nat := vMinLength

/-- `RenderHtml::to_html_with_buf for F` (src lines 142-151): invoke the
function once, at the point serialization needs the value, and delegate
serialization (buffer, position, escape, mark-branches) to the produced
value. No render effect is created: the result is just the delegate's output
plus the once-advanced closure state. -/
def fToHtmlWithBuf {V P : Type}
    (vToHtml : V → String → P → Bool → Bool → String × P)
    (f : InstrFn V) (buf : String) (position : P)
    (escape markBranches : Bool) : (String × P) × InstrFn V :=
  let p := f.invoke
  (vToHtml p.1 buf position escape markBranches, p.2)

/-- An out-of-order HTML stream under construction, as its list of chunks. -/
abbrev StreamBuilder := List String

/-- `RenderHtml::to_html_async_with_buf for F` (src lines 153-169): invoke the
function once and delegate streaming serialization to the produced value,
forwarding the `OUT_OF_ORDER` const generic. -/
def fToHtmlAsyncWithBuf {V P : Type} (outOfOrder : Bool)
    (vToHtmlAsync : Bool → V → StreamBuilder → P → Bool → Bool →
      StreamBuilder × P)
    (f : InstrFn V) (buf : StreamBuilder) (position : P)
    (escape markBranches : Bool) : (StreamBuilder × P) × InstrFn V :=
  let p := f.invoke
  (vToHtmlAsync outOfOrder p.1 buf position escape markBranches, p.2)

/-! ## The `Suspend` async attribute wrapper -/

/-- The observable result of a `Suspend` build/hydrate: the shared
`Rc<RefCell<Option<State>>>` slot as returned to the caller, and the single
task handed to `Executor::spawn_local`, as the slot transformation it performs
once the wrapped future has resolved. Modelled from the spec: the executor
(crate `any_spawner`, not under `src/`) runs a spawned task at some later
point; spawning does not block the caller. -/
structure Spawned (S : Type) where
  slot : Option S
  task : Option S → Option S

/-- `AttributeValue::build for Suspend<Fut>` (src lines 397-408): create a
fresh shared slot holding `none`, spawn one local task that awaits the future
(whose resolved value is `fut`) and overwrites the slot with `some` of the
value's built state, and return the still-empty slot immediately. -/
def suspendAttrBuild {V S Elem : Type} (fut : V) (el : Elem) (key : String)
    (vbuild : Elem → String → V → S) : Spawned S :=
  { slot := none, task := fun _ => some (vbuild el key fut) }

/-- `AttributeValue::hydrate for Suspend<Fut>` (src lines 379-395): identical
to build, except the spawned task populates the slot with the resolved
value's hydrated state against the captured key and element. -/
def suspendAttrHydrate {V S Elem : Type} (fromServer : Bool) (fut : V)
    (key : String) (el : Elem)
    (vhydrate : Bool → String → Elem → V → S) : Spawned S :=
  { slot := none, task := fun _ => some (vhydrate fromServer key el fut) }

/-- `AttributeValue::rebuild for Suspend<Fut>` (src lines 410-422), as the
slot transformation performed by the task it spawns: once the new future
resolves (to `fut`), rebuild in place whatever state then sits in the shared
slot; if the slot is still empty, do nothing. -/
def suspendAttrRebuild {V S : Type} (fut : V) (key : String)
    (vrebuild : String → V → S → S) (slot : Option S) : Option S :=
  match slot with
  | some state => some (vrebuild key fut state)
  | none => none

/-- `AttributeValue::to_html for Suspend<Fut>` (src lines 370-375): leave the
buffer untouched; when the `tracing` feature is enabled, emit the diagnostic. -/
def suspendToHtml (tracing : Bool) (_key buf : String) :
    String × List String :=
  (buf,
    if tracing then ["Suspended attributes cannot be used outside Suspense."]
    else [])

/-- `AttributeValue::into_cloneable for Suspend<Fut>` (src lines 424-427):
`Cloneable = ()`; produce the inert unit value, emitting a diagnostic when the
`tracing` feature is enabled. -/
def suspendIntoCloneable (tracing : Bool) : Unit × List String :=
  ((), if tracing then ["Suspended attributes cannot be spread"] else [])

/-- `AttributeValue::into_cloneable_owned for Suspend<Fut>`
(src lines 429-432): identical to `into_cloneable`. -/
def suspendIntoCloneableOwned (tracing : Bool) : Unit × List String :=
  ((), if tracing then ["Suspended attributes cannot be spread"] else [])

/-! ## Observable-cell (signal) integrations -/

/-- The nine observable-cell varieties instantiated by the `signal_impl` /
`signal_impl_arena` macros (src lines 855-863). -/
inductive SignalKind where
  | RwSignal
  | ReadSignal
  | Memo
  | Signal
  | MaybeSignal
  | ArcRwSignal
  | ArcReadSignal
  | ArcMemo
  | ArcSignal
deriving DecidableEq

/-- The `$dry_resolve` literal passed to each macro invocation
(src lines 855-863): `RwSignal false`, `ReadSignal false`, `Memo true`,
`Signal true`, `MaybeSignal true`, `ArcRwSignal false`, `ArcReadSignal false`,
`ArcMemo false`, `ArcSignal true`. -/
def dryResolveFlag : SignalKind → Bool
  | .RwSignal => false
  | .ReadSignal => false
  | .Memo => true
  | .Signal => true
  | .MaybeSignal => true
  | .ArcRwSignal => false
  | .ArcReadSignal => false
  | .ArcMemo => false
  | .ArcSignal => true

/-- `RenderHtml::dry_resolve` in the macro bodies (src lines 563-567 and
740-744): perform one `get()` on the cell (registering its dependency)
exactly when the macro's flag is set; `reads` counts the `get`s performed so
far. -/
def signalDryResolve (k : SignalKind) (reads : Nat) : Nat :=
  if dryResolveFlag k then reads + 1 else reads

/-- Modelled from the spec: the memoized cell varieties — `Memo` and its
reference-counted form `ArcMemo`. Used only to compare the spec's
classification with the source's flag table. -/
def isMemoizedVariety : SignalKind → Bool
  | .Memo => true
  | .ArcMemo => true
  | _ => false

/-- Modelled from the spec: the type-erased cell varieties — `Signal`,
`MaybeSignal`, and `ArcSignal`. Used only to compare the spec's
classification with the source's flag table. -/
def isTypeErasedVariety : SignalKind → Bool
  | .Signal => true
  | .MaybeSignal => true
  | .ArcSignal => true
  | _ => false

/-- `AttributeValue::rebuild for F` (src lines 333-335): the body is empty
(`// TODO rebuild`); the reactive function is not invoked and the state is
untouched. -/
def fAttrRebuild {V S : Type} (f : InstrFn V) (_key : String) (state : S) :
    S × InstrFn V :=
  (state, f)

/-- `AttributeValue::rebuild` in the signal macro bodies (src lines 655-657
and 834-836): likewise an empty body for every cell variety. -/
def signalAttrRebuild {S : Type} (_k : SignalKind) (_key : String)
    (state : S) : S :=
  state

end Tachys

/-! ## Theorems -/

namespace Tachys

/-- **C1.** A reactive function in view position runs through a render effect
whose body invokes the function exactly once per run; run 0 (no previous
state) builds state via the value's own `build` (or, in the hydration variant,
the value's `hydrate` against the given cursor and position), and every run
`n + 1` rebuilds the state carried over from run `n` in place via the value's
`rebuild`, returning that same (rebuilt) state. -/
theorem renderEffect_first_run_builds_then_rebuilds {V S C P : Type}
    (vbuild : V → S) (vrebuild : V → S → S) (vhydrate : C → P → V → S)
    (cursor : C) (position : P) (f : InstrFn V) (n : Nat) :
    (effectRuns (buildBody vbuild vrebuild) f 0).1 = vbuild (f.values f.calls)
      ∧ (effectRuns (buildBody vbuild vrebuild) f (n + 1)).1 =
          vrebuild ((effectRuns (buildBody vbuild vrebuild) f n).2.values
              ((effectRuns (buildBody vbuild vrebuild) f n).2.calls))
            (effectRuns (buildBody vbuild vrebuild) f n).1
      ∧ (effectRuns (hydrateBody vhydrate vrebuild cursor position) f 0).1 =
          vhydrate cursor position (f.values f.calls)
      ∧ (effectRuns (hydrateBody vhydrate vrebuild cursor position) f (n + 1)).1 =
          vrebuild
            ((effectRuns (hydrateBody vhydrate vrebuild cursor position) f n).2.values
              ((effectRuns (hydrateBody vhydrate vrebuild cursor position) f n).2.calls))
            (effectRuns (hydrateBody vhydrate vrebuild cursor position) f n).1
      ∧ (effectRuns (buildBody vbuild vrebuild) f n).2.calls = f.calls + n + 1
      ∧ (effectRuns (hydrateBody vhydrate vrebuild cursor position) f n).2.calls =
          f.calls + n + 1 := by
  refine ⟨rfl, rfl, rfl, rfl, ?_, ?_⟩
  · induction n with
    | zero => rfl
    | succ k ih =>
      simp only [effectRuns, buildBody, InstrFn.invoke]
      cases h : effectRuns (buildBody vbuild vrebuild) f k with
      | mk s f' =>
        simp only
        have : f'.calls = f.calls + k + 1 := by rw [h] at ih; exact ih
        omega
  · induction n with
    | zero => rfl
    | succ k ih =>
      simp only [effectRuns, hydrateBody, InstrFn.invoke]
      cases h : effectRuns (hydrateBody vhydrate vrebuild cursor position) f k with
      | mk s f' =>
        simp only
        have : f'.calls = f.calls + k + 1 := by rw [h] at ih; exact ih
        omega

/-- **C4.** Invoking a `SharedReactiveFunction` whose mutex is poisoned panics
rather than returning a value, the poison check happens before the inner
closure runs (the outcome does not depend on the closure at all, and the call
counter does not advance), and a closure panic while holding the lock poisons
the mutex so every later invocation through the same handle fails fast. -/
theorem sharedFn_poisoned_invoke_panics {V : Type} (m : SharedFn V)
    (h : m.poisoned = true) :
    m.invoke = .panicked m
      ∧ (∀ vs : Nat → Option V, ({ m with values := vs } : SharedFn V).invoke =
          .panicked { m with values := vs })
      ∧ (∀ m' : SharedFn V, m'.poisoned = false → m'.values m'.calls = none →
          ∃ m'' : SharedFn V, m'.invoke = .panicked m'' ∧ m''.poisoned = true) := by
  refine ⟨?_, ?_, ?_⟩
  · simp [SharedFn.invoke, h]
  · intro vs
    simp [SharedFn.invoke, h]
  · intro m' hp hv
    refine ⟨{ m' with calls := m'.calls + 1, poisoned := true }, ?_, rfl⟩
    simp [SharedFn.invoke, hp, hv]

theorem insertNodesBefore_of_not_mem {a : Nat} {child pre rest : Tree}
    (h : a ∉ pre) :
    insertNodesBefore a child (pre ++ a :: rest) = pre ++ child ++ a :: rest := by
  induction pre with
  | nil => simp [insertNodesBefore]
  | cons y ys ih =>
    have hy : y ≠ a := fun e => h (e ▸ List.mem_cons_self y ys)
    have hys : a ∉ ys := fun hm => h (List.mem_cons_of_mem y hm)
    simp only [List.cons_append, insertNodesBefore, if_neg hy, List.append_eq,
      ih hys]

theorem filter_of_disjoint {old l : Tree} (h : ∀ x ∈ l, x ∉ old) :
    (l.filter fun x => decide (x ∉ old)) = l := by
  rw [List.filter_eq_self]
  intro a ha
  simpa using h a ha

theorem filter_of_subset {old l : Tree} (h : ∀ x ∈ l, x ∈ old) :
    (l.filter fun x => decide (x ∉ old)) = [] := by
  rw [List.filter_eq_nil_iff]
  intro a ha
  simpa using h a ha

/-- **C2.** `Render::rebuild(state)` on a reactive-function slot whose old
state owns the nonempty node block `a :: rest`, mounted contiguously in the
tree, performs the hand-off make-before-break: the freshly built new state is
inserted immediately before the old state's position, the old state is
unmounted only afterwards (leaving the new nodes exactly in the old block's
place), and in every intermediate tree at least one of the two states is
fully present. -/
theorem render_rebuild_make_before_break (pre post newNodes rest : Tree)
    (a : Nat)
    (hpre : ∀ x ∈ pre, x ∉ a :: rest)
    (hnew : ∀ x ∈ newNodes, x ∉ a :: rest)
    (hpost : ∀ x ∈ post, x ∉ a :: rest) :
    rebuildTrace newNodes (a :: rest) (pre ++ (a :: rest) ++ post) =
        [pre ++ (a :: rest) ++ post,
         pre ++ newNodes ++ (a :: rest) ++ post,
         pre ++ newNodes ++ post]
      ∧ ∀ t ∈ rebuildTrace newNodes (a :: rest) (pre ++ (a :: rest) ++ post),
          (∀ x ∈ a :: rest, x ∈ t) ∨ ∀ x ∈ newNodes, x ∈ t := by
  have ha : a ∉ pre := fun hm => hpre a hm (List.mem_cons_self a rest)
  have hins : mountedInsertBeforeThis (a :: rest) newNodes
      (pre ++ (a :: rest) ++ post) = pre ++ newNodes ++ (a :: rest) ++ post := by
    have : pre ++ (a :: rest) ++ post = pre ++ a :: (rest ++ post) := by simp
    rw [mountedInsertBeforeThis, this, insertNodesBefore_of_not_mem ha]
    simp
  have hrm : mountedUnmount (a :: rest) (pre ++ newNodes ++ (a :: rest) ++ post)
      = pre ++ newNodes ++ post := by
    rw [mountedUnmount]
    simp only [List.filter_append]
    rw [filter_of_disjoint hpre, filter_of_disjoint hnew,
      filter_of_subset (fun x hx => hx), filter_of_disjoint hpost]
    simp
  have htrace : rebuildTrace newNodes (a :: rest) (pre ++ (a :: rest) ++ post) =
      [pre ++ (a :: rest) ++ post,
       pre ++ newNodes ++ (a :: rest) ++ post,
       pre ++ newNodes ++ post] := by
    rw [rebuildTrace]
    simp only [hins, hrm]
  refine ⟨htrace, ?_⟩
  rw [htrace]
  intro t ht
  simp only [List.mem_cons, List.not_mem_nil, or_false] at ht
  rcases ht with rfl | rfl | rfl
  · exact Or.inl fun x hx => List.mem_append_left _ (List.mem_append_right _ hx)
  · exact Or.inl fun x hx => List.mem_append_left _ (List.mem_append_right _ hx)
  · exact Or.inr fun x hx => List.mem_append_left _ (List.mem_append_right _ hx)

/-- Witness for C2: old state `[2, 3]` mounted between `1` and `4`, new state
`[5, 6]`. -/
theorem render_rebuild_make_before_break_witness :
    rebuildTrace [5, 6] (2 :: [3]) ([1] ++ (2 :: [3]) ++ [4]) =
        [[1] ++ (2 :: [3]) ++ [4],
         [1] ++ [5, 6] ++ (2 :: [3]) ++ [4],
         [1] ++ [5, 6] ++ [4]]
      ∧ ∀ t ∈ rebuildTrace [5, 6] (2 :: [3]) ([1] ++ (2 :: [3]) ++ [4]),
          (∀ x ∈ 2 :: [3], x ∈ t) ∨ ∀ x ∈ ([5, 6] : Tree), x ∈ t :=
  render_rebuild_make_before_break [1] [4] [5, 6] [3] 2
    (by decide) (by decide) (by decide)

/-- **C8.** The bridged mountable states — the optional `RenderEffectState`
box, a `RenderEffect`'s currently held value, and the `Result`-shaped render
state — forward `mount`/`unmount` to the held (or success-case) inner state
and are no-ops when nothing is held or the value is an error, and
`insert_before_this` forwards to the inner state and returns `false`, leaving
the child untouched, when nothing is held or the value is an error. -/
theorem mountable_bridge_forwards_and_noops {M C E Elem Node : Type}
    (u : M → M) (mt : M → Elem → Option Node → M) (ins : M → C → Bool × C)
    (m : M) (eff : Option M) (child : C) (e : E)
    (parent : Elem) (marker : Option Node) :
    effectUnmount u (some m) = some (u m)
      ∧ effectUnmount u (none : Option M) = none
      ∧ effectMount mt (some m) parent marker = some (mt m parent marker)
      ∧ effectMount mt (none : Option M) parent marker = none
      ∧ effectInsertBeforeThis ins (some m) child = ins m child
      ∧ effectInsertBeforeThis ins (none : Option M) child = (false, child)
      ∧ effectStateUnmount u (some eff) = some (effectUnmount u eff)
      ∧ effectStateUnmount u (none : Option (Option M)) = none
      ∧ effectStateMount mt (some eff) parent marker =
          some (effectMount mt eff parent marker)
      ∧ effectStateMount mt (none : Option (Option M)) parent marker = none
      ∧ effectStateInsertBeforeThis ins (some eff) child =
          effectInsertBeforeThis ins eff child
      ∧ effectStateInsertBeforeThis ins (none : Option (Option M)) child =
          (false, child)
      ∧ effectStateInsertBeforeThis ins (some (none : Option M)) child =
          (false, child)
      ∧ resultUnmount u (.ok m : Except E M) = .ok (u m)
      ∧ resultUnmount u (.error e : Except E M) = .error e
      ∧ resultMount mt (.ok m : Except E M) parent marker =
          .ok (mt m parent marker)
      ∧ resultMount mt (.error e : Except E M) parent marker = .error e
      ∧ resultInsertBeforeThis ins (.ok m : Except E M) child = ins m child
      ∧ resultInsertBeforeThis ins (.error e : Except E M) child =
          (false, child) := by
  repeat' constructor

/-- Witness for C4 at a concrete poisoned shared function. -/
theorem sharedFn_poisoned_invoke_panics_witness :
    (({ values := fun _ => some 7, calls := 0, poisoned := true } :
        SharedFn Nat).invoke =
      .panicked { values := fun _ => some 7, calls := 0, poisoned := true }) :=
  (sharedFn_poisoned_invoke_panics
    { values := fun _ => some 7, calls := 0, poisoned := true } rfl).1

/-- **C5.** The HTML serialization paths of a reactive-function view create no
persistent render effect: synchronous `to_html_with_buf` and streaming
`to_html_async_with_buf` each invoke the function exactly once (the closure's
call counter advances by exactly one) at the point serialization needs the
value, and delegate serialization of that value; the static minimum-length
hint `MIN_LENGTH` is zero (while the dynamic `html_len` reports the value
type's own static minimum). -/
theorem f_html_serialization_invokes_once {V P : Type}
    (vToHtml : V → String → P → Bool → Bool → String × P)
    (vToHtmlAsync : Bool → V → StreamBuilder → P → Bool → Bool →
      StreamBuilder × P)
    (f : InstrFn V) (buf : String) (sbuf : StreamBuilder) (position : P)
    (escape markBranches outOfOrder : Bool) (vMinLength : Nat) :
    fMinLength = 0
      ∧ fHtmlLen vMinLength = vMinLength
      ∧ fToHtmlWithBuf vToHtml f buf position escape markBranches =
          (vToHtml (f.values f.calls) buf position escape markBranches,
            { f with calls := f.calls + 1 })
      ∧ (fToHtmlWithBuf vToHtml f buf position escape markBranches).2.calls =
          f.calls + 1
      ∧ fToHtmlAsyncWithBuf outOfOrder vToHtmlAsync f sbuf position escape
            markBranches =
          (vToHtmlAsync outOfOrder (f.values f.calls) sbuf position escape
              markBranches,
            { f with calls := f.calls + 1 })
      ∧ (fToHtmlAsyncWithBuf outOfOrder vToHtmlAsync f sbuf position escape
          markBranches).2.calls = f.calls + 1 :=
  ⟨rfl, rfl, rfl, rfl, rfl, rfl⟩

/-- **C3.** `build` and `hydrate` of a `Suspend`-wrapped attribute value
return a slot that is still empty (`none`) at the moment of return, without
blocking the caller, and spawn exactly one local task which, once the wrapped
future has resolved to `fut`, populates the slot with `some` of the resolved
value's built (respectively hydrated against the captured key and element)
state — regardless of what the slot held before the task ran, so the single
spawned task is the unique writer. -/
theorem suspend_attr_build_hydrate_deferred {V S Elem : Type} (fut : V)
    (el : Elem) (key : String) (vbuild : Elem → String → V → S)
    (vhydrate : Bool → String → Elem → V → S) (fromServer : Bool)
    (s : Option S) :
    (suspendAttrBuild fut el key vbuild).slot = none
      ∧ (suspendAttrBuild fut el key vbuild).task s = some (vbuild el key fut)
      ∧ (suspendAttrHydrate fromServer fut key el vhydrate).slot = none
      ∧ (suspendAttrHydrate fromServer fut key el vhydrate).task s =
          some (vhydrate fromServer key el fut) :=
  ⟨rfl, rfl, rfl, rfl⟩

/-- **C7.** The task spawned by `rebuild` on a `Suspend`-wrapped attribute
value applies the resolved value's `rebuild` in place to whatever state sits
in the shared slot when the new future completes; if the slot is still empty
because the earlier build/hydrate resolution never completed, the rebuild is
silently dropped — the slot stays `none` and no error is raised. -/
theorem suspend_attr_rebuild_in_place_or_dropped {V S : Type} (fut : V)
    (key : String) (vrebuild : String → V → S → S) (state : S) :
    suspendAttrRebuild fut key vrebuild (some state) =
        some (vrebuild key fut state)
      ∧ suspendAttrRebuild fut key vrebuild none = none :=
  ⟨rfl, rfl⟩

/-- **C10.** Unsupported operations on a `Suspend`-wrapped attribute value
degrade instead of failing: `to_html` always leaves the output buffer
unchanged, `into_cloneable` / `into_cloneable_owned` always produce the inert
unit value, and with the `tracing` feature enabled each reports its developer
diagnostic (with the feature disabled, no diagnostic is emitted but the
degraded outputs are identical). -/
theorem suspend_unsupported_ops_degrade (tracing : Bool) (key buf : String) :
    (suspendToHtml tracing key buf).1 = buf
      ∧ (suspendIntoCloneable tracing).1 = ()
      ∧ (suspendIntoCloneableOwned tracing).1 = ()
      ∧ (suspendToHtml true key buf).2 =
          ["Suspended attributes cannot be used outside Suspense."]
      ∧ (suspendIntoCloneable true).2 =
          ["Suspended attributes cannot be spread"]
      ∧ (suspendIntoCloneableOwned true).2 =
          ["Suspended attributes cannot be spread"]
      ∧ (suspendToHtml false key buf).2 = ([] : List String)
      ∧ (suspendIntoCloneable false).2 = ([] : List String) :=
  ⟨rfl, rfl, rfl, rfl, rfl, rfl, rfl, rfl⟩

/-- **C6, counterexample.** The claim "dry_resolve performs an eager read
exactly for the memoized and type-erased cell varieties" fails at the
reference-counted memoized variety: `ArcMemo` is memoized, yet its macro flag
is `false` (src line 862), so `dry_resolve` performs no read for it. -/
theorem dry_resolve_memoized_claim_counterexample :
    isMemoizedVariety SignalKind.ArcMemo = true
      ∧ dryResolveFlag SignalKind.ArcMemo = false
      ∧ ¬ (dryResolveFlag SignalKind.ArcMemo =
            (isMemoizedVariety SignalKind.ArcMemo
              || isTypeErasedVariety SignalKind.ArcMemo)) := by
  decide

/-- **C6, amended.** `dry_resolve` performs an eager read of the cell exactly
for the memoized and type-erased varieties other than the reference-counted
memoized cell — that is, for `Memo`, `Signal`, `MaybeSignal` and `ArcSignal` —
and performs no read for the plain owned and arena-stored varieties and for
`ArcMemo`. -/
theorem signal_dry_resolve_eager_exactly (k : SignalKind) (reads : Nat) :
    dryResolveFlag k =
        ((isMemoizedVariety k || isTypeErasedVariety k)
          && !(decide (k = SignalKind.ArcMemo)))
      ∧ signalDryResolve k reads =
          (if dryResolveFlag k then reads + 1 else reads)
      ∧ (dryResolveFlag k = true ↔
          k = SignalKind.Memo ∨ k = SignalKind.Signal
            ∨ k = SignalKind.MaybeSignal ∨ k = SignalKind.ArcSignal) := by
  refine ⟨by cases k <;> rfl, rfl, ?_⟩
  cases k <;> simp [dryResolveFlag]

/-- **C9.** The standalone dynamic-attribute rebuild path is a stub: for every
key and every existing attribute render state, `AttributeValue::rebuild` for a
reactive function leaves the state unchanged and does not even invoke the
function, and the macro-generated `rebuild` for every observable-cell variety
likewise returns the state unchanged. -/
theorem attr_rebuild_is_stub {V S : Type} (f : InstrFn V) (k : SignalKind)
    (key : String) (state : S) :
    fAttrRebuild f key state = (state, f)
      ∧ (fAttrRebuild f key state).2.calls = f.calls
      ∧ signalAttrRebuild k key state = state :=
  ⟨rfl, rfl, rfl⟩

end Tachys
